import Mathlib

/-!
Verification of the coverage pipeline of the codecov action:
Parse → Aggregate → Persist → Retrieve (with fallback) → Compare.

Shallow embedding of the TypeScript sources: `src/parsers/coverage-parser.ts`,
`src/utils/coverage-comparison.ts`, `src/types/coverage.ts`, and the
`ArtifactManager`.  JavaScript numbers are modelled exactly, as `ℚ` for rates
and `ℤ` for counters; `Number.parseFloat(x.toFixed(2))` is modelled as
rounding to two decimals with ties toward positive infinity, which is the tie
rule of `Number.prototype.toFixed`.
-/

/-- Two-decimal rounding, modelling `Number.parseFloat(x.toFixed(2))`.
Mathlib's `round` rounds half toward positive infinity, exactly the tie rule
`toFixed` specifies (pick the larger candidate integer on ties). -/
def round2 (q : ℚ) : ℚ := ((round (q * 100) : ℤ) : ℚ) / 100

/-- JavaScript `a || b` on numbers held in an optional field: `undefined` and
`0` are falsy and select the fallback. -/
def jsOrInt (v : Option ℤ) (d : ℤ) : ℤ :=
  match v with
  | none => d
  | some n => if n = 0 then d else n

/-- JavaScript `s || d` on an optional string: `undefined` and `""` are falsy. -/
def jsOrStr (v : Option String) (d : String) : String :=
  match v with
  | none => d
  | some s => if s = "" then d else s

/-- `LineCoverage` from `src/types/coverage.ts`. -/
structure LineCoverage where
  lineNumber : ℤ
  count : ℤ
  type : String
  trueCount : Option ℤ := none
  falseCount : Option ℤ := none
deriving DecidableEq

/-- `FileCoverage` from `src/types/coverage.ts`. -/
structure FileCoverage where
  name : String
  path : String
  statements : ℤ
  coveredStatements : ℤ
  conditionals : ℤ
  coveredConditionals : ℤ
  methods : ℤ
  coveredMethods : ℤ
  lineRate : ℚ
  branchRate : ℚ
  lines : List LineCoverage
  missingLines : Option (List ℤ) := none
  partialLines : Option (List ℤ) := none
  patchCoverage : Option ℚ := none
deriving DecidableEq

/-- `CoverageMetrics` from `src/types/coverage.ts`. -/
structure CoverageMetrics where
  statements : ℤ
  coveredStatements : ℤ
  conditionals : ℤ
  coveredConditionals : ℤ
  methods : ℤ
  coveredMethods : ℤ
  elements : ℤ
  coveredElements : ℤ
  lineRate : ℚ
  branchRate : ℚ
deriving DecidableEq

/-- `CoverageResults` from `src/types/coverage.ts`: one parsed Clover document. -/
structure CoverageResults where
  timestamp : ℤ
  metrics : CoverageMetrics
  files : List FileCoverage
deriving DecidableEq

/-- `FileComparison` from `src/types/coverage.ts`. -/
structure FileComparison where
  name : String
  path : String
  baseLineRate : ℚ
  currentLineRate : ℚ
  baseBranchRate : ℚ
  currentBranchRate : ℚ
  deltaLineRate : ℚ
  deltaBranchRate : ℚ
  deltaStatements : ℤ
  deltaCoveredStatements : ℤ
  deltaConditionals : ℤ
  deltaCoveredConditionals : ℤ
  missingLines : ℤ
  partialLines : ℤ
deriving DecidableEq

/-- `CoverageComparison` from `src/types/coverage.ts`.  `compareResults` in
the source populates every numeric field, so the fields it always sets are
non-optional here; the reference  strings stay optional as in the source. -/
structure CoverageComparison where
  filesAdded : List FileCoverage
  filesRemoved : List FileCoverage
  filesChanged : List FileComparison
  deltaLineRate : ℚ
  deltaBranchRate : ℚ
  deltaTotalStatements : ℤ
  deltaCoveredStatements : ℤ
  deltaTotalConditionals : ℤ
  deltaCoveredConditionals : ℤ
  deltaTotalMethods : ℤ
  deltaCoveredMethods : ℤ
  improvement : Bool
  deltaFiles : ℤ
  deltaLines : ℤ
  deltaBranches : ℤ
  deltaHits : ℤ
  deltaMisses : ℤ
  deltaPartials : ℤ
  baseBranch : Option String := none
  headCommit : Option String := none
  baseCommit : Option String := none
  baseFiles : ℤ
  baseLines : ℤ
  baseBranches : ℤ
  baseHits : ℤ
  baseMisses : ℤ
  basePartials : ℤ
  currentFiles : ℤ
  currentLines : ℤ
  currentBranches : ℤ
  currentHits : ℤ
  currentMisses : ℤ
  currentPartials : ℤ
deriving DecidableEq

/-- `AggregatedCoverageResults` from `src/types/coverage.ts`. -/
structure AggregatedCoverageResults where
  totalStatements : ℤ
  coveredStatements : ℤ
  totalConditionals : ℤ
  coveredConditionals : ℤ
  totalMethods : ℤ
  coveredMethods : ℤ
  lineRate : ℚ
  branchRate : ℚ
  files : List FileCoverage
  comparison : Option CoverageComparison := none
  flags : Option (List String) := none
  name : Option String := none
  totalHits : Option ℤ := none
  totalMisses : Option ℤ := none
  totalPartials : Option ℤ := none
  totalBranches : Option ℤ := none
  totalFiles : Option ℤ := none
  totalLines : Option ℤ := none
  patchCoverageRate : Option ℚ := none
deriving DecidableEq

/-- The attribute bag handed to `CoverageParser.parseMetrics`
(`src/parsers/coverage-parser.ts`, lines 68–113).  The source receives a
string-keyed attribute record and reads only the eight counter attributes,
each through `Number.parseInt(attr || "0", 10)`; a field below holds the
parsed integer value of the attribute, `none` when the attribute is absent.
`lineRateAttr`/`branchRateAttr` stand for any rate values the source document
may carry — `parseMetrics` never looks such keys up, which the theorems make
explicit. -/
structure MetricsAttrs where
  statements : Option ℤ := none
  coveredstatements : Option ℤ := none
  conditionals : Option ℤ := none
  coveredconditionals : Option ℤ := none
  methods : Option ℤ := none
  coveredmethods : Option ℤ := none
  elements : Option ℤ := none
  coveredelements : Option ℤ := none
  lineRateAttr : Option ℚ := none
  branchRateAttr : Option ℚ := none
deriving DecidableEq

/-- One `<line>` element's attributes, numeric values already extracted
(the source parses them with `Number.parseInt`). -/
structure LineAttrs where
  num : ℤ
  count : ℤ
  type : Option String := none
  truecount : Option ℤ := none
  falsecount : Option ℤ := none
deriving DecidableEq

/-- One `<file>` element as handed to `parseFile_internal`. -/
structure FileElement where
  name : Option String := none
  path : Option String := none
  metrics : MetricsAttrs
  line : List LineAttrs := []
deriving DecidableEq

/-- `CoverageParser.parseMetrics` (`src/parsers/coverage-parser.ts` 68–113):
reads the eight counter attributes (defaulting to 0) and recomputes both
rates from them; rate attributes of the document are never consulted. -/
def CoverageParser.parseMetrics (metricsAttrs : MetricsAttrs) : CoverageMetrics :=
  let statements := metricsAttrs.statements.getD 0
  let coveredStatements := metricsAttrs.coveredstatements.getD 0
  let conditionals := metricsAttrs.conditionals.getD 0
  let coveredConditionals := metricsAttrs.coveredconditionals.getD 0
  let methods := metricsAttrs.methods.getD 0
  let coveredMethods := metricsAttrs.coveredmethods.getD 0
  let elements := metricsAttrs.elements.getD 0
  let coveredElements := metricsAttrs.coveredelements.getD 0
  let lineRate : ℚ :=
    if 0 < statements then round2 ((coveredStatements : ℚ) / (statements : ℚ) * 100) else 0
  let branchRate : ℚ :=
    if 0 < conditionals then round2 ((coveredConditionals : ℚ) / (conditionals : ℚ) * 100) else 0
  { statements, coveredStatements, conditionals, coveredConditionals,
    methods, coveredMethods, elements, coveredElements, lineRate, branchRate }

/-- `CoverageParser.parseFile_internal` (`src/parsers/coverage-parser.ts`
118–165): metrics via `parseMetrics`, lines copied, `type` defaulting to
`"stmt"` through JavaScript `||`. -/
def CoverageParser.parseFile_internal (fileElement : FileElement) : FileCoverage :=
  let metrics := CoverageParser.parseMetrics fileElement.metrics
  { name := fileElement.name.getD ""
    path := fileElement.path.getD ""
    statements := metrics.statements
    coveredStatements := metrics.coveredStatements
    conditionals := metrics.conditionals
    coveredConditionals := metrics.coveredConditionals
    methods := metrics.methods
    coveredMethods := metrics.coveredMethods
    lineRate := metrics.lineRate
    branchRate := metrics.branchRate
    lines := fileElement.line.map (fun l =>
      { lineNumber := l.num
        count := l.count
        type := jsOrStr l.type "stmt"
        trueCount := l.truecount
        falseCount := l.falsecount }) }

/-- Accumulator of the `for` loop inside `aggregateResults`. -/
structure AggAcc where
  totalStatements : ℤ
  coveredStatements : ℤ
  totalConditionals : ℤ
  coveredConditionals : ℤ
  totalMethods : ℤ
  coveredMethods : ℤ
  allFiles : List FileCoverage
deriving DecidableEq

/-- One iteration of the loop in `aggregateResults`
(`src/parsers/coverage-parser.ts` 182–191). -/
def aggStep (acc : AggAcc) (result : CoverageResults) : AggAcc :=
  { totalStatements := acc.totalStatements + result.metrics.statements
    coveredStatements := acc.coveredStatements + result.metrics.coveredStatements
    totalConditionals := acc.totalConditionals + result.metrics.conditionals
    coveredConditionals := acc.coveredConditionals + result.metrics.coveredConditionals
    totalMethods := acc.totalMethods + result.metrics.methods
    coveredMethods := acc.coveredMethods + result.metrics.coveredMethods
    allFiles := acc.allFiles ++ result.files }

/-- `CoverageParser.aggregateResults` (`src/parsers/coverage-parser.ts`
170–215): sums the six counters over all documents, concatenates the file
lists, and recomputes both rates from the summed counters. -/
def CoverageParser.aggregateResults (results : List CoverageResults) : AggregatedCoverageResults :=
  let acc := results.foldl aggStep ⟨0, 0, 0, 0, 0, 0, []⟩
  let lineRate : ℚ :=
    if 0 < acc.totalStatements then
      round2 ((acc.coveredStatements : ℚ) / (acc.totalStatements : ℚ) * 100)
    else 0
  let branchRate : ℚ :=
    if 0 < acc.totalConditionals then
      round2 ((acc.coveredConditionals : ℚ) / (acc.totalConditionals : ℚ) * 100)
    else 0
  { totalStatements := acc.totalStatements
    coveredStatements := acc.coveredStatements
    totalConditionals := acc.totalConditionals
    coveredConditionals := acc.coveredConditionals
    totalMethods := acc.totalMethods
    coveredMethods := acc.coveredMethods
    lineRate := lineRate
    branchRate := branchRate
    files := acc.allFiles }

/-- `CompareOptions` from `src/utils/coverage-comparison.ts`. -/
structure CompareOptions where
  baseBranch : Option String := none
  headCommit : Option String := none
  baseCommit : Option String := none
deriving DecidableEq

/-- `compareFiles` (`src/utils/coverage-comparison.ts` 20–46): per-file
comparison record; rate deltas rounded to two decimals, counter deltas exact,
line-detail counts via JavaScript `?.length || 0`. -/
def compareFiles (baseFile currentFile : FileCoverage) : FileComparison :=
  { name := currentFile.name
    path := currentFile.path
    baseLineRate := baseFile.lineRate
    currentLineRate := currentFile.lineRate
    baseBranchRate := baseFile.branchRate
    currentBranchRate := currentFile.branchRate
    deltaLineRate := round2 (currentFile.lineRate - baseFile.lineRate)
    deltaBranchRate := round2 (currentFile.branchRate - baseFile.branchRate)
    deltaStatements := currentFile.statements - baseFile.statements
    deltaCoveredStatements := currentFile.coveredStatements - baseFile.coveredStatements
    deltaConditionals := currentFile.conditionals - baseFile.conditionals
    deltaCoveredConditionals := currentFile.coveredConditionals - baseFile.coveredConditionals
    missingLines := ((currentFile.missingLines.getD []).length : ℤ)
    partialLines := ((currentFile.partialLines.getD []).length : ℤ) }

/-- A JavaScript `Map<string, FileCoverage>` as an insertion-ordered
association list. -/
abbrev FileMap := List (String × FileCoverage)

/-- JavaScript `Map.prototype.set`: an existing key keeps its insertion
position and gets the new value; a fresh key is appended. -/
def msetFile (m : FileMap) (k : String) (v : FileCoverage) : FileMap :=
  if m.any (fun p => p.1 = k) then
    m.map (fun p => if p.1 = k then (k, v) else p)
  else
    m ++ [(k, v)]

/-- JavaScript `Map.prototype.get` (first entry with the key; `msetFile`
keeps keys unique so the first is the only one). -/
def lookupFile (m : FileMap) (k : String) : Option FileCoverage :=
  match m with
  | [] => none
  | (k2, v) :: rest => if k2 = k then some v else lookupFile rest k

/-- The map-building loops of `compareResults`
(`src/utils/coverage-comparison.ts` 60–70). -/
def buildFileMap (files : List FileCoverage) : FileMap :=
  files.foldl (fun m f => msetFile m f.path f) []

/-- `CoverageComparator.compareResults` (`src/utils/coverage-comparison.ts`
55–181).  The single loop over the current map that pushes into `filesAdded`
and `filesChanged` is rendered as two `filterMap`s over the same
insertion-ordered map, which produces the same two lists in the same order. -/
def CoverageComparator.compareResults (baseResults currentResults : AggregatedCoverageResults)
    (options : Option CompareOptions) : CoverageComparison :=
  let baseFileMap := buildFileMap baseResults.files
  let currentFileMap := buildFileMap currentResults.files
  let filesAdded := currentFileMap.filterMap (fun pf =>
    if (lookupFile baseFileMap pf.1).isNone then some pf.2 else none)
  let filesChanged := currentFileMap.filterMap (fun pf =>
    match lookupFile baseFileMap pf.1 with
    | none => none
    | some baseFile =>
      let comparison := compareFiles baseFile pf.2
      if comparison.deltaLineRate ≠ 0 ∨ comparison.deltaBranchRate ≠ 0 then
        some comparison
      else none)
  let filesRemoved := baseFileMap.filterMap (fun pf =>
    if (lookupFile currentFileMap pf.1).isNone then some pf.2 else none)
  let deltaLineRate := round2 (currentResults.lineRate - baseResults.lineRate)
  let deltaBranchRate := round2 (currentResults.branchRate - baseResults.branchRate)
  let improvement : Bool :=
    decide (0 < deltaLineRate ∨ (deltaLineRate = 0 ∧ 0 < deltaBranchRate))
  { filesAdded := filesAdded
    filesRemoved := filesRemoved
    filesChanged := filesChanged
    deltaLineRate := deltaLineRate
    deltaBranchRate := deltaBranchRate
    deltaTotalStatements := currentResults.totalStatements - baseResults.totalStatements
    deltaCoveredStatements := currentResults.coveredStatements - baseResults.coveredStatements
    deltaTotalConditionals := currentResults.totalConditionals - baseResults.totalConditionals
    deltaCoveredConditionals := currentResults.coveredConditionals - baseResults.coveredConditionals
    deltaTotalMethods := currentResults.totalMethods - baseResults.totalMethods
    deltaCoveredMethods := currentResults.coveredMethods - baseResults.coveredMethods
    improvement := improvement
    deltaFiles := jsOrInt currentResults.totalFiles (currentResults.files.length : ℤ) -
      jsOrInt baseResults.totalFiles (baseResults.files.length : ℤ)
    deltaLines := jsOrInt currentResults.totalLines 0 - jsOrInt baseResults.totalLines 0
    deltaBranches := jsOrInt currentResults.totalBranches 0 - jsOrInt baseResults.totalBranches 0
    deltaHits := jsOrInt currentResults.totalHits 0 - jsOrInt baseResults.totalHits 0
    deltaMisses := jsOrInt currentResults.totalMisses 0 - jsOrInt baseResults.totalMisses 0
    deltaPartials := jsOrInt currentResults.totalPartials 0 - jsOrInt baseResults.totalPartials 0
    baseBranch := options.bind (fun o => o.baseBranch)
    headCommit := options.bind (fun o => o.headCommit)
    baseCommit := options.bind (fun o => o.baseCommit)
    baseFiles := jsOrInt baseResults.totalFiles (baseResults.files.length : ℤ)
    baseLines := jsOrInt baseResults.totalLines 0
    baseBranches := jsOrInt baseResults.totalBranches 0
    baseHits := jsOrInt baseResults.totalHits 0
    baseMisses := jsOrInt baseResults.totalMisses 0
    basePartials := jsOrInt baseResults.totalPartials 0
    currentFiles := jsOrInt currentResults.totalFiles (currentResults.files.length : ℤ)
    currentLines := jsOrInt currentResults.totalLines 0
    currentBranches := jsOrInt currentResults.totalBranches 0
    currentHits := jsOrInt currentResults.totalHits 0
    currentMisses := jsOrInt currentResults.totalMisses 0
    currentPartials := jsOrInt currentResults.totalPartials 0 }

/-- `ArtifactManager.sanitizeBranchName`: every character outside
`[a-zA-Z0-9-_]` becomes a hyphen. -/
def sanitizeBranchName (branchName : String) : String :=
  String.mk (branchName.data.map (fun c => if c.isAlphanum ∨ c = '-' ∨ c = '_' then c else '-'))

/-- `ArtifactManager.getArtifactName` (current naming scheme, `part_007`
42–66): `codecov-<type>-results-<branch>` plus, in order, the sanitized
`GITHUB_JOB` id (when the environment variable is set and non-empty), the
variant name qualifier, and the flag qualifiers. -/
def getArtifactName (job : Option String) (branchName : String) (type : String)
    (flags : Option (List String)) (name : Option String) : String :=
  let sanitized := sanitizeBranchName branchName
  let jobId :=
    match job with
    | none => ""
    | some j => if j = "" then "" else "-" ++ sanitizeBranchName j
  let base := "codecov-" ++ type ++ "-results-" ++ sanitized ++ jobId
  let withName :=
    match name with
    | none => base
    | some n => if n = "" then base else base ++ "-" ++ sanitizeBranchName n
  match flags with
  | none => withName
  | some fl =>
    if 0 < fl.length then
      withName ++ "-" ++ String.intercalate "-" (fl.map sanitizeBranchName)
    else withName

/-- `ArtifactManager.getLegacyArtifactName` (legacy naming scheme, `part_007`
72–91): same as the current scheme but never carrying the job id. -/
def getLegacyArtifactName (branchName : String) (type : String)
    (flags : Option (List String)) (name : Option String) : String :=
  let sanitized := sanitizeBranchName branchName
  let base := "codecov-" ++ type ++ "-results-" ++ sanitized
  let withName :=
    match name with
    | none => base
    | some n => if n = "" then base else base ++ "-" ++ sanitizeBranchName n
  match flags with
  | none => withName
  | some fl =>
    if 0 < fl.length then
      withName ++ "-" ++ String.intercalate "-" (fl.map sanitizeBranchName)
    else withName

/-- Helper for `dedupFirst`: drop elements already seen, keep first
occurrences in order. -/
def dedupFirstAux (seen : List String) : List String → List String
  | [] => []
  | x :: xs => if x ∈ seen then dedupFirstAux seen xs else x :: dedupFirstAux (x :: seen) xs

/-- JavaScript `[...new Set(list)]`: duplicates dropped, first occurrence
keeps its position. -/
def dedupFirst (l : List String) : List String := dedupFirstAux [] l

/-- The ordered candidate-name list of `downloadBaseCoverageResults`
(`part_007` 302–329): current scheme with qualifiers, current scheme without
flag/variant qualifiers, legacy scheme with qualifiers, legacy scheme
without, deduplicated keeping first positions. -/
def artifactNamesToTry (job : Option String) (baseBranch : String) (type : String)
    (flags : Option (List String)) (name : Option String) : List String :=
  dedupFirst
    [getArtifactName job baseBranch type flags name,
     getArtifactName job baseBranch type none none,
     getLegacyArtifactName baseBranch type flags name,
     getLegacyArtifactName baseBranch type none none]

/-- A workflow run as returned by the CI platform's run listing. -/
structure WorkflowRun where
  id : ℕ
  runNumber : ℕ
deriving DecidableEq

/-- One artifact of a workflow run, as listed by the CI platform. -/
structure ArtifactInfo where
  name : String
  id : ℕ
  expired : Bool
deriving DecidableEq

/-- The filter of a workflow-run listing request: by exact commit
(`head_sha`) or by branch. -/
inductive RunFilter where
  | byCommit (sha : String)
  | byBranch (branch : String)
deriving DecidableEq

/-- A workflow-run listing request, carrying the status restriction and the
page bound the source always passes (`status: "success"`, `per_page: 10`). -/
structure RunQuery where
  filter : RunFilter
  status : String
  perPage : ℕ
deriving DecidableEq

/-- The CI platform as seen by the retrieval code: run listings per query,
artifact listings per run id, and the download/extract outcome per artifact
id (`none` models a missing or unreadable results file). -/
structure RetrievalEnv where
  listRuns : RunQuery → List WorkflowRun
  listArtifacts : ℕ → List ArtifactInfo
  download : ℕ → Option AggregatedCoverageResults

/-- The inner scan of one run's artifact list (`part_007` 365–369): for each
candidate name in order, `artifacts.find(a => a.name === name && !a.expired)`;
the first hit wins. -/
def findCandidateArtifact (names : List String) (artifacts : List ArtifactInfo) :
    Option ArtifactInfo :=
  match names with
  | [] => none
  | nm :: rest =>
    match artifacts.find? (fun a => a.name == nm && !a.expired) with
    | some a => some a
    | none => findCandidateArtifact rest artifacts

/-- The outer scan over candidate runs (`part_007` 357–406): list each run's
artifacts and stop at the first run holding an unexpired candidate. -/
def scanRuns (env : RetrievalEnv) (names : List String) :
    List WorkflowRun → Option ArtifactInfo
  | [] => none
  | run :: rest =>
    match findCandidateArtifact names (env.listArtifacts run.id) with
    | some a => some a
    | none => scanRuns env names rest

/-- Modelled from the spec: the current `ArtifactManager.downloadBaseCoverageResults`
of `src/utils/artifact-manager.ts` is not among the provided sources — only an
earlier revision (`part_007`, which has the candidate-name scan but no commit
tier) and the unit tests exercising the commit tier are.  Per spec §4.4 and
the tests: when a base commit reference is supplied, list runs filtered by
that exact commit (`status: "success"`, `per_page: 10`); fall back to the
branch-filtered listing only when the commit-filtered listing returns no
runs (the tests pin that a commit run with no matching artifact does NOT fall
back to the branch).  The artifact scan inside each run follows `part_007`.
Returns the listing requests issued, in order, and the outcome. -/
def downloadBaseCoverageResults (env : RetrievalEnv) (job : Option String)
    (baseBranch : String) (flags : Option (List String)) (name : Option String)
    (baseSha : Option String) : List RunQuery × Option AggregatedCoverageResults :=
  let names := artifactNamesToTry job baseBranch "coverage" flags name
  let branchQuery : RunQuery := ⟨RunFilter.byBranch baseBranch, "success", 10⟩
  let finish (queries : List RunQuery) (runs : List WorkflowRun) :
      List RunQuery × Option AggregatedCoverageResults :=
    (queries, (scanRuns env names runs).bind (fun a => env.download a.id))
  match baseSha with
  | none => finish [branchQuery] (env.listRuns branchQuery)
  | some sha =>
    let shaQuery : RunQuery := ⟨RunFilter.byCommit sha, "success", 10⟩
    let shaRuns := env.listRuns shaQuery
    if shaRuns.isEmpty then
      finish [shaQuery, branchQuery] (env.listRuns branchQuery)
    else
      finish [shaQuery] shaRuns

/-- The persisted coverage payload: every field of
`AggregatedCoverageResults` except `comparison`, matching the destructuring
`const { comparison: _comparison, ...resultsToSave } = results` in
`uploadCoverageResults`. -/
structure SavedCoverageResults where
  totalStatements : ℤ
  coveredStatements : ℤ
  totalConditionals : ℤ
  coveredConditionals : ℤ
  totalMethods : ℤ
  coveredMethods : ℤ
  lineRate : ℚ
  branchRate : ℚ
  files : List FileCoverage
  flags : Option (List String)
  name : Option String
  totalHits : Option ℤ
  totalMisses : Option ℤ
  totalPartials : Option ℤ
  totalBranches : Option ℤ
  totalFiles : Option ℤ
  totalLines : Option ℤ
  patchCoverageRate : Option ℚ
deriving DecidableEq

/-- The rest-destructuring dropping `comparison`:
`const { comparison: _comparison, ...resultsToSave } = results`. -/
def eraseComparison (results : AggregatedCoverageResults) : SavedCoverageResults :=
  { totalStatements := results.totalStatements
    coveredStatements := results.coveredStatements
    totalConditionals := results.totalConditionals
    coveredConditionals := results.coveredConditionals
    totalMethods := results.totalMethods
    coveredMethods := results.coveredMethods
    lineRate := results.lineRate
    branchRate := results.branchRate
    files := results.files
    flags := results.flags
    name := results.name
    totalHits := results.totalHits
    totalMisses := results.totalMisses
    totalPartials := results.totalPartials
    totalBranches := results.totalBranches
    totalFiles := results.totalFiles
    totalLines := results.totalLines
    patchCoverageRate := results.patchCoverageRate }

/-- Reading a persisted payload back (`extractAndReadCoverageResults` parses
the JSON into `AggregatedCoverageResults`): the payload carries no
`comparison` key, so the field comes back absent. -/
def readBackCoverage (saved : SavedCoverageResults) : AggregatedCoverageResults :=
  { totalStatements := saved.totalStatements
    coveredStatements := saved.coveredStatements
    totalConditionals := saved.totalConditionals
    coveredConditionals := saved.coveredConditionals
    totalMethods := saved.totalMethods
    coveredMethods := saved.coveredMethods
    lineRate := saved.lineRate
    branchRate := saved.branchRate
    files := saved.files
    comparison := none
    flags := saved.flags
    name := saved.name
    totalHits := saved.totalHits
    totalMisses := saved.totalMisses
    totalPartials := saved.totalPartials
    totalBranches := saved.totalBranches
    totalFiles := saved.totalFiles
    totalLines := saved.totalLines
    patchCoverageRate := saved.patchCoverageRate }

/-- `TestSummary` for the test-results side of the pipeline.  The source file
`src/types/test-results.ts` is not among the provided sources; modelled from
the spec §3 (`TestSummary`): totals, pass rate, total time, the cases, and
the optionally attached comparison (kept abstract — `uploadResults` only
drops it). -/
structure AggregatedTestResults where
  totalTests : ℤ
  passedTests : ℤ
  failedTests : ℤ
  skippedTests : ℤ
  passRate : ℚ
  totalTime : ℚ
  comparison : Option (List String) := none
deriving DecidableEq

/-- The persisted test payload: `AggregatedTestResults` minus `comparison`. -/
structure SavedTestResults where
  totalTests : ℤ
  passedTests : ℤ
  failedTests : ℤ
  skippedTests : ℤ
  passRate : ℚ
  totalTime : ℚ
deriving DecidableEq

/-- The rest-destructuring dropping `comparison` in `uploadResults`. -/
def eraseTestComparison (results : AggregatedTestResults) : SavedTestResults :=
  { totalTests := results.totalTests
    passedTests := results.passedTests
    failedTests := results.failedTests
    skippedTests := results.skippedTests
    passRate := results.passRate
    totalTime := results.totalTime }

/-- Outcomes of the file-system and artifact-store steps inside the `try`
block of the upload functions.  Each step either succeeds or throws with a
message; the environment fixes the outcome of each step of one call. -/
structure UploadEnv where
  mkdtempOutcome : Except String String
  writeOutcome : Except String Unit
  uploadOutcome : Except String ℕ
  unlinkOutcome : Except String Unit
  rmdirOutcome : Except String Unit

/-- What one call to an upload function did: the payload written to the
results file inside the temporary directory (if the write step was reached
and succeeded) and the warning logged when a failure was swallowed. -/
structure UploadOutcome (σ : Type) where
  written : Option σ
  warning : Option String
deriving DecidableEq

/-- `ArtifactManager.uploadCoverageResults` (`part_007` 141–190, identically
in `coverage-comparison.ts` 308–345): make a temp dir, strip `comparison`,
write the JSON payload, upload it, clean up; every failure is caught, logged
as a warning and swallowed.  The `Except` result type records whether the
call can throw to its caller; every control path below ends in `.ok`. -/
def uploadCoverageResults (env : UploadEnv) (results : AggregatedCoverageResults)
    (_branchName : String) (_flags : Option (List String)) (_name : Option String) :
    Except String (UploadOutcome SavedCoverageResults) :=
  match env.mkdtempOutcome with
  | Except.error e => Except.ok ⟨none, some ("Failed to upload coverage artifact: " ++ e)⟩
  | Except.ok _tmpDir =>
    let resultsToSave := eraseComparison results
    match env.writeOutcome with
    | Except.error e => Except.ok ⟨none, some ("Failed to upload coverage artifact: " ++ e)⟩
    | Except.ok _ =>
      match env.uploadOutcome with
      | Except.error e =>
        Except.ok ⟨some resultsToSave, some ("Failed to upload coverage artifact: " ++ e)⟩
      | Except.ok _id =>
        match env.unlinkOutcome with
        | Except.error e =>
          Except.ok ⟨some resultsToSave, some ("Failed to upload coverage artifact: " ++ e)⟩
        | Except.ok _ =>
          match env.rmdirOutcome with
          | Except.error e =>
            Except.ok ⟨some resultsToSave, some ("Failed to upload coverage artifact: " ++ e)⟩
          | Except.ok _ => Except.ok ⟨some resultsToSave, none⟩

/-- `ArtifactManager.uploadResults` (`part_007` 96–132): the test-results
twin of `uploadCoverageResults`, with the same try/catch shape. -/
def uploadResults (env : UploadEnv) (results : AggregatedTestResults)
    (_branchName : String) (_name : Option String) :
    Except String (UploadOutcome SavedTestResults) :=
  match env.mkdtempOutcome with
  | Except.error e => Except.ok ⟨none, some ("Failed to upload test artifact: " ++ e)⟩
  | Except.ok _tmpDir =>
    let resultsToSave := eraseTestComparison results
    match env.writeOutcome with
    | Except.error e => Except.ok ⟨none, some ("Failed to upload test artifact: " ++ e)⟩
    | Except.ok _ =>
      match env.uploadOutcome with
      | Except.error e =>
        Except.ok ⟨some resultsToSave, some ("Failed to upload test artifact: " ++ e)⟩
      | Except.ok _id =>
        match env.unlinkOutcome with
        | Except.error e =>
          Except.ok ⟨some resultsToSave, some ("Failed to upload test artifact: " ++ e)⟩
        | Except.ok _ =>
          match env.rmdirOutcome with
          | Except.error e =>
            Except.ok ⟨some resultsToSave, some ("Failed to upload test artifact: " ++ e)⟩
          | Except.ok _ => Except.ok ⟨some resultsToSave, none⟩

/-- The persist-then-compare tail of `processCoverage` (`src/index.ts`
297–311): upload the current aggregate, download the base aggregate, attach
the comparison when a base exists. -/
def persistAndAttachComparison (uploadEnv : UploadEnv) (retrievalEnv : RetrievalEnv)
    (aggregatedResults : AggregatedCoverageResults) (currentBranch baseBranch : String) :
    AggregatedCoverageResults :=
  let _uploaded := uploadCoverageResults uploadEnv aggregatedResults currentBranch none none
  match (downloadBaseCoverageResults retrievalEnv none baseBranch none none none).2 with
  | some baseCoverage =>
    { aggregatedResults with
      comparison := some (CoverageComparator.compareResults baseCoverage aggregatedResults none) }
  | none => aggregatedResults

theorem foldl_aggStep_spec (results : List CoverageResults) (acc : AggAcc) :
    results.foldl aggStep acc =
      { totalStatements := acc.totalStatements + (results.map (fun r => r.metrics.statements)).sum
        coveredStatements :=
          acc.coveredStatements + (results.map (fun r => r.metrics.coveredStatements)).sum
        totalConditionals :=
          acc.totalConditionals + (results.map (fun r => r.metrics.conditionals)).sum
        coveredConditionals :=
          acc.coveredConditionals + (results.map (fun r => r.metrics.coveredConditionals)).sum
        totalMethods := acc.totalMethods + (results.map (fun r => r.metrics.methods)).sum
        coveredMethods := acc.coveredMethods + (results.map (fun r => r.metrics.coveredMethods)).sum
        allFiles := acc.allFiles ++ results.flatMap (fun r => r.files) } := by
  induction results generalizing acc with
  | nil => simp
  | cons r rest ih =>
    simp only [List.foldl_cons, ih, List.map_cons, List.sum_cons, List.flatMap_cons, aggStep,
      AggAcc.mk.injEq]
    refine ⟨by ring, by ring, by ring, by ring, by ring, by ring, by simp⟩

/-- A parsed document reporting 1 of 2 statements covered (rate 50). -/
def exDocHalf : CoverageResults :=
  { timestamp := 0
    metrics := { statements := 2, coveredStatements := 1, conditionals := 0,
                 coveredConditionals := 0, methods := 0, coveredMethods := 0,
                 elements := 0, coveredElements := 0, lineRate := 50, branchRate := 0 }
    files := [] }

/-- A parsed document reporting 9 of 10 statements covered (rate 90). -/
def exDocNine : CoverageResults :=
  { timestamp := 0
    metrics := { statements := 10, coveredStatements := 9, conditionals := 0,
                 coveredConditionals := 0, methods := 0, coveredMethods := 0,
                 elements := 0, coveredElements := 0, lineRate := 90, branchRate := 0 }
    files := [] }

/-- C1: `CoverageParser.aggregateResults` sums every counter over the input
documents, recomputes `lineRate` as `round2(sum covered / sum statements * 100)`
when the summed statements are positive and 0 otherwise (`branchRate` likewise
from conditionals), concatenates the per-document file lists, returns all
totals 0, rates 0 and an empty file list for the empty sequence, and is not
the mean of the per-document rates (two documents of different sizes witness
the difference). -/
theorem aggregateResults_recomputes_rates_from_summed_counters
    (results : List CoverageResults) :
    (CoverageParser.aggregateResults results).totalStatements
        = (results.map (fun r => r.metrics.statements)).sum ∧
    (CoverageParser.aggregateResults results).coveredStatements
        = (results.map (fun r => r.metrics.coveredStatements)).sum ∧
    (CoverageParser.aggregateResults results).totalConditionals
        = (results.map (fun r => r.metrics.conditionals)).sum ∧
    (CoverageParser.aggregateResults results).coveredConditionals
        = (results.map (fun r => r.metrics.coveredConditionals)).sum ∧
    (CoverageParser.aggregateResults results).totalMethods
        = (results.map (fun r => r.metrics.methods)).sum ∧
    (CoverageParser.aggregateResults results).coveredMethods
        = (results.map (fun r => r.metrics.coveredMethods)).sum ∧
    (CoverageParser.aggregateResults results).lineRate =
      (if 0 < (results.map (fun r => r.metrics.statements)).sum then
        round2 ((((results.map (fun r => r.metrics.coveredStatements)).sum : ℤ) : ℚ) /
          (((results.map (fun r => r.metrics.statements)).sum : ℤ) : ℚ) * 100)
      else 0) ∧
    (CoverageParser.aggregateResults results).branchRate =
      (if 0 < (results.map (fun r => r.metrics.conditionals)).sum then
        round2 ((((results.map (fun r => r.metrics.coveredConditionals)).sum : ℤ) : ℚ) /
          (((results.map (fun r => r.metrics.conditionals)).sum : ℤ) : ℚ) * 100)
      else 0) ∧
    (CoverageParser.aggregateResults results).files = results.flatMap (fun r => r.files) ∧
    CoverageParser.aggregateResults [] =
      { totalStatements := 0, coveredStatements := 0, totalConditionals := 0,
        coveredConditionals := 0, totalMethods := 0, coveredMethods := 0,
        lineRate := 0, branchRate := 0, files := [] } ∧
    (CoverageParser.aggregateResults [exDocHalf, exDocNine]).lineRate ≠
      (exDocHalf.metrics.lineRate + exDocNine.metrics.lineRate) / 2 := by
  refine ⟨?_, ?_, ?_, ?_, ?_, ?_, ?_, ?_, ?_, by decide,
    by norm_num [CoverageParser.aggregateResults, foldl_aggStep_spec, aggStep, exDocHalf,
      exDocNine, round2, round_eq]⟩ <;>
    simp [CoverageParser.aggregateResults, foldl_aggStep_spec]

/-- C8: every metrics record and every `FileCoverage` the Clover parser
produces satisfies `lineRate = round2(coveredStatements/statements*100)` when
`statements > 0` and `lineRate = 0` otherwise, `branchRate` likewise over
conditionals; the rates are recomputed from the counts, and any rate values
carried by the source document are ignored (`parseMetrics` gives the same
output with the document's rate attributes stripped). -/
theorem parser_recomputes_rates (metricsAttrs : MetricsAttrs) (fileElement : FileElement) :
    (CoverageParser.parseMetrics metricsAttrs).lineRate =
      (if 0 < (CoverageParser.parseMetrics metricsAttrs).statements then
        round2 (((CoverageParser.parseMetrics metricsAttrs).coveredStatements : ℚ) /
          ((CoverageParser.parseMetrics metricsAttrs).statements : ℚ) * 100)
      else 0) ∧
    (CoverageParser.parseMetrics metricsAttrs).branchRate =
      (if 0 < (CoverageParser.parseMetrics metricsAttrs).conditionals then
        round2 (((CoverageParser.parseMetrics metricsAttrs).coveredConditionals : ℚ) /
          ((CoverageParser.parseMetrics metricsAttrs).conditionals : ℚ) * 100)
      else 0) ∧
    (CoverageParser.parseFile_internal fileElement).lineRate =
      (if 0 < (CoverageParser.parseFile_internal fileElement).statements then
        round2 (((CoverageParser.parseFile_internal fileElement).coveredStatements : ℚ) /
          ((CoverageParser.parseFile_internal fileElement).statements : ℚ) * 100)
      else 0) ∧
    (CoverageParser.parseFile_internal fileElement).branchRate =
      (if 0 < (CoverageParser.parseFile_internal fileElement).conditionals then
        round2 (((CoverageParser.parseFile_internal fileElement).coveredConditionals : ℚ) /
          ((CoverageParser.parseFile_internal fileElement).conditionals : ℚ) * 100)
      else 0) ∧
    CoverageParser.parseMetrics metricsAttrs =
      CoverageParser.parseMetrics
        { metricsAttrs with lineRateAttr := none, branchRateAttr := none } :=
  ⟨rfl, rfl, rfl, rfl, rfl⟩

theorem compareResults_deltaLineRate (b c : AggregatedCoverageResults)
    (o : Option CompareOptions) :
    (CoverageComparator.compareResults b c o).deltaLineRate =
      round2 (c.lineRate - b.lineRate) := rfl

theorem compareResults_deltaBranchRate (b c : AggregatedCoverageResults)
    (o : Option CompareOptions) :
    (CoverageComparator.compareResults b c o).deltaBranchRate =
      round2 (c.branchRate - b.branchRate) := rfl

theorem compareResults_improvement (b c : AggregatedCoverageResults)
    (o : Option CompareOptions) :
    (CoverageComparator.compareResults b c o).improvement =
      decide (0 < round2 (c.lineRate - b.lineRate) ∨
        (round2 (c.lineRate - b.lineRate) = 0 ∧ 0 < round2 (c.branchRate - b.branchRate))) := rfl

theorem compareResults_filesAdded (b c : AggregatedCoverageResults)
    (o : Option CompareOptions) :
    (CoverageComparator.compareResults b c o).filesAdded =
      (buildFileMap c.files).filterMap (fun pf =>
        if (lookupFile (buildFileMap b.files) pf.1).isNone then some pf.2 else none) := rfl

theorem compareResults_filesRemoved (b c : AggregatedCoverageResults)
    (o : Option CompareOptions) :
    (CoverageComparator.compareResults b c o).filesRemoved =
      (buildFileMap b.files).filterMap (fun pf =>
        if (lookupFile (buildFileMap c.files) pf.1).isNone then some pf.2 else none) := rfl

theorem compareResults_filesChanged (b c : AggregatedCoverageResults)
    (o : Option CompareOptions) :
    (CoverageComparator.compareResults b c o).filesChanged =
      (buildFileMap c.files).filterMap (fun pf =>
        match lookupFile (buildFileMap b.files) pf.1 with
        | none => none
        | some baseFile =>
          let comparison := compareFiles baseFile pf.2
          if comparison.deltaLineRate ≠ 0 ∨ comparison.deltaBranchRate ≠ 0 then
            some comparison
          else none) := rfl

theorem compareResults_deltaTotalStatements (b c : AggregatedCoverageResults)
    (o : Option CompareOptions) :
    (CoverageComparator.compareResults b c o).deltaTotalStatements =
      c.totalStatements - b.totalStatements := rfl

theorem compareResults_deltaCoveredStatements (b c : AggregatedCoverageResults)
    (o : Option CompareOptions) :
    (CoverageComparator.compareResults b c o).deltaCoveredStatements =
      c.coveredStatements - b.coveredStatements := rfl

theorem compareResults_deltaTotalConditionals (b c : AggregatedCoverageResults)
    (o : Option CompareOptions) :
    (CoverageComparator.compareResults b c o).deltaTotalConditionals =
      c.totalConditionals - b.totalConditionals := rfl

theorem compareResults_deltaCoveredConditionals (b c : AggregatedCoverageResults)
    (o : Option CompareOptions) :
    (CoverageComparator.compareResults b c o).deltaCoveredConditionals =
      c.coveredConditionals - b.coveredConditionals := rfl

theorem compareResults_deltaTotalMethods (b c : AggregatedCoverageResults)
    (o : Option CompareOptions) :
    (CoverageComparator.compareResults b c o).deltaTotalMethods =
      c.totalMethods - b.totalMethods := rfl

theorem compareResults_deltaCoveredMethods (b c : AggregatedCoverageResults)
    (o : Option CompareOptions) :
    (CoverageComparator.compareResults b c o).deltaCoveredMethods =
      c.coveredMethods - b.coveredMethods := rfl

theorem compareResults_deltaFiles (b c : AggregatedCoverageResults)
    (o : Option CompareOptions) :
    (CoverageComparator.compareResults b c o).deltaFiles =
      jsOrInt c.totalFiles (c.files.length : ℤ) - jsOrInt b.totalFiles (b.files.length : ℤ) := rfl

theorem compareResults_deltaLines (b c : AggregatedCoverageResults)
    (o : Option CompareOptions) :
    (CoverageComparator.compareResults b c o).deltaLines =
      jsOrInt c.totalLines 0 - jsOrInt b.totalLines 0 := rfl

theorem compareResults_deltaBranches (b c : AggregatedCoverageResults)
    (o : Option CompareOptions) :
    (CoverageComparator.compareResults b c o).deltaBranches =
      jsOrInt c.totalBranches 0 - jsOrInt b.totalBranches 0 := rfl

theorem compareResults_deltaHits (b c : AggregatedCoverageResults)
    (o : Option CompareOptions) :
    (CoverageComparator.compareResults b c o).deltaHits =
      jsOrInt c.totalHits 0 - jsOrInt b.totalHits 0 := rfl

theorem compareResults_deltaMisses (b c : AggregatedCoverageResults)
    (o : Option CompareOptions) :
    (CoverageComparator.compareResults b c o).deltaMisses =
      jsOrInt c.totalMisses 0 - jsOrInt b.totalMisses 0 := rfl

theorem compareResults_deltaPartials (b c : AggregatedCoverageResults)
    (o : Option CompareOptions) :
    (CoverageComparator.compareResults b c o).deltaPartials =
      jsOrInt c.totalPartials 0 - jsOrInt b.totalPartials 0 := rfl

/-- C5: the comparison's improvement flag is true exactly when
`deltaLineRate > 0`, or `deltaLineRate = 0` and `deltaBranchRate > 0`; in
particular a strict drop in the line rate forces `improvement = false`
whatever the branch rate does. -/
theorem compareResults_improvement_iff (baseResults currentResults : AggregatedCoverageResults)
    (options : Option CompareOptions) :
    ((CoverageComparator.compareResults baseResults currentResults options).improvement = true ↔
      (0 < (CoverageComparator.compareResults baseResults currentResults options).deltaLineRate ∨
        ((CoverageComparator.compareResults baseResults currentResults options).deltaLineRate = 0 ∧
          0 < (CoverageComparator.compareResults baseResults currentResults
                options).deltaBranchRate))) ∧
    ((CoverageComparator.compareResults baseResults currentResults options).deltaLineRate < 0 →
      (CoverageComparator.compareResults baseResults currentResults options).improvement
        = false) := by
  rw [compareResults_improvement, compareResults_deltaLineRate, compareResults_deltaBranchRate]
  constructor
  · exact decide_eq_true_iff
  · intro h
    refine decide_eq_false ?_
    rintro (h1 | ⟨h1, h2⟩) <;> linarith

/-- An aggregate at line rate 80, branch rate 50 (8 of 10 statements, 1 of 2
conditionals). -/
def exSumA : AggregatedCoverageResults :=
  { totalStatements := 10, coveredStatements := 8, totalConditionals := 2,
    coveredConditionals := 1, totalMethods := 0, coveredMethods := 0,
    lineRate := 80, branchRate := 50, files := [] }

/-- An aggregate at line rate 70, branch rate 90. -/
def exSumB : AggregatedCoverageResults :=
  { totalStatements := 10, coveredStatements := 7, totalConditionals := 10,
    coveredConditionals := 9, totalMethods := 0, coveredMethods := 0,
    lineRate := 70, branchRate := 90, files := [] }

/-- Witness for C5: from base rate 80 to current rate 70 the line rate drops,
so `improvement` is false even though the branch rate rose from 50 to 90. -/
theorem compareResults_improvement_iff_witness :
    (CoverageComparator.compareResults exSumA exSumB none).improvement = false :=
  (compareResults_improvement_iff exSumA exSumB none).2
    (by norm_num [compareResults_deltaLineRate, exSumA, exSumB, round2, round_eq])

/-- `round2` is the identity on exact multiples of one hundredth. -/
theorem round2_of_hundredths {q : ℚ} (m : ℤ) (hm : q * 100 = (m : ℚ)) : round2 q = q := by
  have hq : q = (m : ℚ) / 100 := by rw [← hm]; ring
  rw [round2, hm, round_intCast, hq]

/-- C7: comparing A against B and B against A yields scalar deltas that are
exact negations of each other (for the rounded rate deltas this uses that
aggregated rates are exact multiples of one hundredth, which aggregation
guarantees), and the `filesAdded` list of one direction equals the
`filesRemoved` list of the other. -/
theorem compareResults_antisymmetry (A B : AggregatedCoverageResults)
    (optsAB optsBA : Option CompareOptions)
    (hAl : ∃ m : ℤ, A.lineRate * 100 = (m : ℚ))
    (hAb : ∃ m : ℤ, A.branchRate * 100 = (m : ℚ))
    (hBl : ∃ m : ℤ, B.lineRate * 100 = (m : ℚ))
    (hBb : ∃ m : ℤ, B.branchRate * 100 = (m : ℚ)) :
    (CoverageComparator.compareResults A B optsAB).deltaLineRate =
      -(CoverageComparator.compareResults B A optsBA).deltaLineRate ∧
    (CoverageComparator.compareResults A B optsAB).deltaBranchRate =
      -(CoverageComparator.compareResults B A optsBA).deltaBranchRate ∧
    (CoverageComparator.compareResults A B optsAB).deltaTotalStatements =
      -(CoverageComparator.compareResults B A optsBA).deltaTotalStatements ∧
    (CoverageComparator.compareResults A B optsAB).deltaCoveredStatements =
      -(CoverageComparator.compareResults B A optsBA).deltaCoveredStatements ∧
    (CoverageComparator.compareResults A B optsAB).deltaTotalConditionals =
      -(CoverageComparator.compareResults B A optsBA).deltaTotalConditionals ∧
    (CoverageComparator.compareResults A B optsAB).deltaCoveredConditionals =
      -(CoverageComparator.compareResults B A optsBA).deltaCoveredConditionals ∧
    (CoverageComparator.compareResults A B optsAB).deltaTotalMethods =
      -(CoverageComparator.compareResults B A optsBA).deltaTotalMethods ∧
    (CoverageComparator.compareResults A B optsAB).deltaCoveredMethods =
      -(CoverageComparator.compareResults B A optsBA).deltaCoveredMethods ∧
    (CoverageComparator.compareResults A B optsAB).deltaFiles =
      -(CoverageComparator.compareResults B A optsBA).deltaFiles ∧
    (CoverageComparator.compareResults A B optsAB).deltaLines =
      -(CoverageComparator.compareResults B A optsBA).deltaLines ∧
    (CoverageComparator.compareResults A B optsAB).deltaBranches =
      -(CoverageComparator.compareResults B A optsBA).deltaBranches ∧
    (CoverageComparator.compareResults A B optsAB).deltaHits =
      -(CoverageComparator.compareResults B A optsBA).deltaHits ∧
    (CoverageComparator.compareResults A B optsAB).deltaMisses =
      -(CoverageComparator.compareResults B A optsBA).deltaMisses ∧
    (CoverageComparator.compareResults A B optsAB).deltaPartials =
      -(CoverageComparator.compareResults B A optsBA).deltaPartials ∧
    (CoverageComparator.compareResults A B optsAB).filesAdded =
      (CoverageComparator.compareResults B A optsBA).filesRemoved ∧
    (CoverageComparator.compareResults A B optsAB).filesRemoved =
      (CoverageComparator.compareResults B A optsBA).filesAdded := by
  obtain ⟨mal, hmal⟩ := hAl
  obtain ⟨mab, hmab⟩ := hAb
  obtain ⟨mbl, hmbl⟩ := hBl
  obtain ⟨mbb, hmbb⟩ := hBb
  have hl1 : round2 (B.lineRate - A.lineRate) = B.lineRate - A.lineRate :=
    round2_of_hundredths (mbl - mal) (by rw [sub_mul, hmal, hmbl]; push_cast; ring)
  have hl2 : round2 (A.lineRate - B.lineRate) = A.lineRate - B.lineRate :=
    round2_of_hundredths (mal - mbl) (by rw [sub_mul, hmal, hmbl]; push_cast; ring)
  have hb1 : round2 (B.branchRate - A.branchRate) = B.branchRate - A.branchRate :=
    round2_of_hundredths (mbb - mab) (by rw [sub_mul, hmab, hmbb]; push_cast; ring)
  have hb2 : round2 (A.branchRate - B.branchRate) = A.branchRate - B.branchRate :=
    round2_of_hundredths (mab - mbb) (by rw [sub_mul, hmab, hmbb]; push_cast; ring)
  refine ⟨?_, ?_, ?_, ?_, ?_, ?_, ?_, ?_, ?_, ?_, ?_, ?_, ?_, ?_, rfl, rfl⟩
  · rw [compareResults_deltaLineRate, compareResults_deltaLineRate, hl1, hl2]; ring
  · rw [compareResults_deltaBranchRate, compareResults_deltaBranchRate, hb1, hb2]; ring
  all_goals
    simp only [compareResults_deltaTotalStatements, compareResults_deltaCoveredStatements,
      compareResults_deltaTotalConditionals, compareResults_deltaCoveredConditionals,
      compareResults_deltaTotalMethods, compareResults_deltaCoveredMethods,
      compareResults_deltaFiles, compareResults_deltaLines, compareResults_deltaBranches,
      compareResults_deltaHits, compareResults_deltaMisses, compareResults_deltaPartials]
    ring

/-- Witness for C7 at concrete aggregates (rates 80/50 against 70/90). -/
theorem compareResults_antisymmetry_witness :
    (CoverageComparator.compareResults exSumA exSumB none).deltaLineRate =
      -((CoverageComparator.compareResults exSumB exSumA none).deltaLineRate) :=
  (compareResults_antisymmetry exSumA exSumB none none
    ⟨8000, by norm_num [exSumA]⟩ ⟨5000, by norm_num [exSumA]⟩
    ⟨7000, by norm_num [exSumB]⟩ ⟨9000, by norm_num [exSumB]⟩).1

theorem compareFiles_path (b c : FileCoverage) : (compareFiles b c).path = c.path := rfl

theorem compareFiles_deltaLineRate (b c : FileCoverage) :
    (compareFiles b c).deltaLineRate = round2 (c.lineRate - b.lineRate) := rfl

theorem compareFiles_deltaBranchRate (b c : FileCoverage) :
    (compareFiles b c).deltaBranchRate = round2 (c.branchRate - b.branchRate) := rfl

theorem msetFile_of_not_mem (m : FileMap) (k : String) (v : FileCoverage)
    (h : m.any (fun p => p.1 = k) = false) : msetFile m k v = m ++ [(k, v)] := by
  simp [msetFile, h]

theorem foldl_msetFile_fresh (files : List FileCoverage) (m : FileMap)
    (hm : ∀ f ∈ files, m.any (fun p => p.1 = f.path) = false)
    (hnd : (files.map FileCoverage.path).Nodup) :
    files.foldl (fun acc f => msetFile acc f.path f) m =
      m ++ files.map (fun f => (f.path, f)) := by
  induction files generalizing m with
  | nil => simp
  | cons f rest ih =>
    have hf : m.any (fun p => p.1 = f.path) = false := hm f (by simp)
    simp only [List.map_cons, List.nodup_cons] at hnd
    rw [List.foldl_cons, msetFile_of_not_mem _ _ _ hf, ih]
    · simp
    · intro g hg
      have h1 : m.any (fun p => p.1 = g.path) = false := hm g (by simp [hg])
      have h2 : ¬(f.path = g.path) := fun hc => hnd.1 (hc ▸ List.mem_map_of_mem _ hg)
      simp only [List.any_append, h1, Bool.false_or, List.any_cons, List.any_nil,
        Bool.or_false, decide_eq_false h2]
    · exact hnd.2

theorem buildFileMap_eq_map (files : List FileCoverage)
    (hnd : (files.map FileCoverage.path).Nodup) :
    buildFileMap files = files.map (fun f => (f.path, f)) := by
  rw [buildFileMap, foldl_msetFile_fresh files [] (by simp) hnd, List.nil_append]

theorem lookupFile_map_eq_some (files : List FileCoverage) (p : String) (f : FileCoverage)
    (hnd : (files.map FileCoverage.path).Nodup) (hf : f ∈ files) (hp : f.path = p) :
    lookupFile (files.map (fun f => (f.path, f))) p = some f := by
  induction files with
  | nil => cases hf
  | cons g rest ih =>
    simp only [List.map_cons, List.nodup_cons] at hnd ⊢
    rw [lookupFile]
    by_cases hg : g.path = p
    · rw [if_pos hg]
      rcases List.mem_cons.mp hf with h | h
      · rw [h]
      · exfalso
        apply hnd.1
        rw [hg, ← hp]
        exact List.mem_map_of_mem FileCoverage.path h
    · rw [if_neg hg]
      rcases List.mem_cons.mp hf with h | h
      · exact absurd (by rw [← h, hp]) hg
      · exact ih hnd.2 h

theorem lookupFile_map_some_mem (files : List FileCoverage) (p : String) (f : FileCoverage)
    (h : lookupFile (files.map (fun f => (f.path, f))) p = some f) :
    f ∈ files ∧ f.path = p := by
  induction files with
  | nil => cases h
  | cons g rest ih =>
    simp only [List.map_cons, lookupFile] at h
    by_cases hg : g.path = p
    · rw [if_pos hg] at h
      cases h
      exact ⟨List.mem_cons_self _ _, hg⟩
    · rw [if_neg hg] at h
      obtain ⟨h1, h2⟩ := ih h
      exact ⟨List.mem_cons_of_mem _ h1, h2⟩

theorem compareResults_filesChanged_if (b c : AggregatedCoverageResults)
    (o : Option CompareOptions) :
    (CoverageComparator.compareResults b c o).filesChanged =
      (buildFileMap c.files).filterMap (fun pf =>
        match lookupFile (buildFileMap b.files) pf.1 with
        | none => none
        | some baseFile =>
          if (compareFiles baseFile pf.2).deltaLineRate ≠ 0 ∨
              (compareFiles baseFile pf.2).deltaBranchRate ≠ 0 then
            some (compareFiles baseFile pf.2)
          else none) := rfl

/-- C6: a path present in both summaries contributes to `filesChanged` exactly
when its two-decimal-rounded line-rate delta or branch-rate delta is nonzero;
in particular files with identical rates stay out of `filesChanged` whatever
their statement or conditional counts do. -/
theorem filesChanged_iff_rounded_delta_nonzero
    (baseResults currentResults : AggregatedCoverageResults) (options : Option CompareOptions)
    (p : String) (bf cf : FileCoverage)
    (hbnd : (baseResults.files.map FileCoverage.path).Nodup)
    (hcnd : (currentResults.files.map FileCoverage.path).Nodup)
    (hbf : bf ∈ baseResults.files) (hbp : bf.path = p)
    (hcf : cf ∈ currentResults.files) (hcp : cf.path = p) :
    (∃ c ∈ (CoverageComparator.compareResults baseResults currentResults options).filesChanged,
        c.path = p) ↔
      (round2 (cf.lineRate - bf.lineRate) ≠ 0 ∨ round2 (cf.branchRate - bf.branchRate) ≠ 0) := by
  rw [compareResults_filesChanged_if, buildFileMap_eq_map _ hbnd, buildFileMap_eq_map _ hcnd]
  constructor
  · rintro ⟨c, hc, hcpath⟩
    rw [List.mem_filterMap] at hc
    obtain ⟨pf, hpf, hg⟩ := hc
    rw [List.mem_map] at hpf
    obtain ⟨cf2, hcf2, rfl⟩ := hpf
    cases hlk : lookupFile (List.map (fun f => (f.path, f)) baseResults.files) cf2.path with
    | none => simp only [hlk] at hg; cases hg
    | some bf2 =>
      simp only [hlk] at hg
      by_cases hcond : (compareFiles bf2 cf2).deltaLineRate ≠ 0 ∨
          (compareFiles bf2 cf2).deltaBranchRate ≠ 0
      · rw [if_pos hcond] at hg
        cases hg
        have hc2p : cf2.path = p := by rw [← compareFiles_path bf2 cf2]; exact hcpath
        have hcf2eq : cf2 = cf :=
          List.inj_on_of_nodup_map hcnd hcf2 hcf (by rw [hc2p, hcp])
        subst hcf2eq
        have hlkp := lookupFile_map_eq_some baseResults.files p bf hbnd hbf hbp
        rw [hc2p] at hlk
        have hbf2eq : bf2 = bf := Option.some_inj.mp (hlk.symm.trans hlkp)
        subst hbf2eq
        rw [compareFiles_deltaLineRate, compareFiles_deltaBranchRate] at hcond
        exact hcond
      · rw [if_neg hcond] at hg
        cases hg
  · intro hdelta
    refine ⟨compareFiles bf cf, ?_, by rw [compareFiles_path, hcp]⟩
    rw [List.mem_filterMap]
    refine ⟨(cf.path, cf), List.mem_map_of_mem _ hcf, ?_⟩
    have hlk : lookupFile (List.map (fun f => (f.path, f)) baseResults.files) cf.path
        = some bf := by
      rw [hcp]; exact lookupFile_map_eq_some baseResults.files p bf hbnd hbf hbp
    simp only [hlk]
    rw [if_pos (by rw [compareFiles_deltaLineRate, compareFiles_deltaBranchRate]; exact hdelta)]

/-- File `a.ts` at 70% line rate (7 of 10). -/
def exFileA70 : FileCoverage :=
  { name := "a", path := "a.ts", statements := 10, coveredStatements := 7,
    conditionals := 0, coveredConditionals := 0, methods := 0, coveredMethods := 0,
    lineRate := 70, branchRate := 0, lines := [] }

/-- File `a.ts` at 85% line rate (17 of 20). -/
def exFileA85 : FileCoverage :=
  { name := "a", path := "a.ts", statements := 20, coveredStatements := 17,
    conditionals := 0, coveredConditionals := 0, methods := 0, coveredMethods := 0,
    lineRate := 85, branchRate := 0, lines := [] }

/-- File `b.ts` at 80% line rate (8 of 10). -/
def exFileB80 : FileCoverage :=
  { name := "b", path := "b.ts", statements := 10, coveredStatements := 8,
    conditionals := 0, coveredConditionals := 0, methods := 0, coveredMethods := 0,
    lineRate := 80, branchRate := 0, lines := [] }

/-- Base aggregate with files {a: 70%, b: 80%}. -/
def exBaseSum : AggregatedCoverageResults :=
  { totalStatements := 20, coveredStatements := 15, totalConditionals := 0,
    coveredConditionals := 0, totalMethods := 0, coveredMethods := 0,
    lineRate := 75, branchRate := 0, files := [exFileA70, exFileB80] }

/-- Current aggregate with files {a: 85%, b: 80%}. -/
def exCurSum : AggregatedCoverageResults :=
  { totalStatements := 30, coveredStatements := 25, totalConditionals := 0,
    coveredConditionals := 0, totalMethods := 0, coveredMethods := 0,
    lineRate := 83.33, branchRate := 0, files := [exFileA85, exFileB80] }

/-- Witness for C6: `a.ts` moved from 70% to 85%, so it appears in
`filesChanged`. -/
theorem filesChanged_iff_rounded_delta_nonzero_witness :
    ∃ c ∈ (CoverageComparator.compareResults exBaseSum exCurSum none).filesChanged,
      c.path = "a.ts" :=
  (filesChanged_iff_rounded_delta_nonzero exBaseSum exCurSum none "a.ts" exFileA70 exFileA85
    (by decide) (by decide) (by decide) (by decide) (by decide) (by decide)).mpr
    (Or.inl (by norm_num [exFileA70, exFileA85, round2, round_eq]))

theorem lookupFile_cons (x : String × FileCoverage) (rest : FileMap) (q : String) :
    lookupFile (x :: rest) q = if x.1 = q then some x.2 else lookupFile rest q := by
  obtain ⟨a, b⟩ := x
  rfl

theorem lookupFile_replace (rest : FileMap) (k q : String) (v : FileCoverage)
    (hqk : ¬(k = q)) :
    lookupFile (rest.map (fun p => if p.1 = k then (k, v) else p)) q = lookupFile rest q := by
  induction rest with
  | nil => rfl
  | cons hd tl ih =>
    obtain ⟨k3, w3⟩ := hd
    rw [List.map_cons, lookupFile_cons, lookupFile_cons]
    by_cases h3 : k3 = k
    · rw [if_pos h3, if_neg hqk, if_neg (fun hc => hqk (h3 ▸ hc))]
      exact ih
    · rw [if_neg h3]
      by_cases h4 : k3 = q
      · rw [if_pos h4, if_pos h4]
      · rw [if_neg h4, if_neg h4]
        exact ih

theorem lookupFile_append_single (m : FileMap) (k q : String) (v : FileCoverage)
    (hfresh : m.any (fun p => p.1 = k) = false) :
    lookupFile (m ++ [(k, v)]) q = if k = q then some v else lookupFile m q := by
  induction m with
  | nil => rfl
  | cons hd tl ih =>
    obtain ⟨k2, w2⟩ := hd
    simp only [List.any_cons, Bool.or_eq_false_iff] at hfresh
    have hk2 : ¬(k2 = k) := by simpa using hfresh.1
    rw [List.cons_append, lookupFile_cons, lookupFile_cons]
    by_cases h2 : k2 = q
    · have hkq : ¬(k = q) := fun hk => hk2 (by rw [h2, hk])
      rw [if_pos h2, if_neg hkq, if_pos h2]
    · rw [if_neg h2, ih hfresh.2, if_neg h2]

theorem lookupFile_replace_self (m : FileMap) (k : String) (v : FileCoverage)
    (h : m.any (fun p => p.1 = k) = true) :
    lookupFile (m.map (fun p => if p.1 = k then (k, v) else p)) k = some v := by
  induction m with
  | nil => simp at h
  | cons hd tl ih =>
    obtain ⟨k2, w2⟩ := hd
    rw [List.map_cons, lookupFile_cons]
    by_cases h2 : k2 = k
    · rw [if_pos h2, if_pos rfl]
    · rw [if_neg h2, if_neg h2]
      simp only [List.any_cons, Bool.or_eq_true] at h
      rcases h with h | h
      · exact absurd (by simpa using h) h2
      · exact ih h

theorem lookupFile_msetFile (m : FileMap) (k q : String) (v : FileCoverage) :
    lookupFile (msetFile m k v) q = if k = q then some v else lookupFile m q := by
  cases hany : m.any (fun p => p.1 = k) with
  | true =>
    rw [msetFile, if_pos hany]
    by_cases hq : k = q
    · subst hq
      rw [if_pos rfl]
      exact lookupFile_replace_self m k v hany
    · rw [if_neg hq]
      exact lookupFile_replace m k q v hq
  | false =>
    rw [msetFile, if_neg (by simp [hany])]
    exact lookupFile_append_single m k q v hany

theorem lookupFile_foldl_mset (files : List FileCoverage) (m : FileMap) (q : String) :
    lookupFile (files.foldl (fun acc f => msetFile acc f.path f) m) q =
      files.foldl (fun acc f => if f.path = q then some f else acc) (lookupFile m q) := by
  induction files generalizing m with
  | nil => rfl
  | cons f rest ih =>
    rw [List.foldl_cons, List.foldl_cons, ih, lookupFile_msetFile]

/-- The invariant every map built by `compareResults` keeps: keys are
pairwise distinct and every entry's value carries its key as path. -/
def goodMap (m : FileMap) : Prop :=
  (m.map Prod.fst).Nodup ∧ ∀ pf ∈ m, pf.2.path = pf.1

theorem goodMap_msetFile (m : FileMap) (f : FileCoverage) (h : goodMap m) :
    goodMap (msetFile m f.path f) := by
  cases hany : m.any (fun p => p.1 = f.path) with
  | true =>
    rw [msetFile, if_pos hany]
    constructor
    · have hkeys : (m.map (fun p => if p.1 = f.path then (f.path, f) else p)).map Prod.fst
          = m.map Prod.fst := by
        rw [List.map_map]
        apply List.map_congr_left
        intro p _
        by_cases hp : p.1 = f.path
        · rw [Function.comp_apply, if_pos hp]
          exact hp.symm
        · rw [Function.comp_apply, if_neg hp]
      rw [hkeys]
      exact h.1
    · intro pf hpf
      rw [List.mem_map] at hpf
      obtain ⟨orig, horig, rfl⟩ := hpf
      by_cases hp : orig.1 = f.path
      · rw [if_pos hp]
      · rw [if_neg hp]
        exact h.2 orig horig
  | false =>
    rw [msetFile, if_neg (by simp [hany])]
    constructor
    · rw [List.map_append, List.map_singleton]
      rw [List.nodup_append]
      refine ⟨h.1, List.nodup_singleton _, ?_⟩
      intro x hx hx2
      rw [List.mem_singleton] at hx2
      subst hx2
      rw [List.mem_map] at hx
      obtain ⟨pf, hpf, hpath⟩ := hx
      have : m.any (fun p => p.1 = f.path) = true :=
        List.any_eq_true.mpr ⟨pf, hpf, by simp [hpath]⟩
      rw [hany] at this
      cases this
    · intro pf hpf
      rw [List.mem_append, List.mem_singleton] at hpf
      rcases hpf with hpf | rfl
      · exact h.2 pf hpf
      · rfl

theorem goodMap_buildFileMap (files : List FileCoverage) : goodMap (buildFileMap files) := by
  rw [buildFileMap]
  have hgen : ∀ m : FileMap, goodMap m →
      goodMap (files.foldl (fun acc f => msetFile acc f.path f) m) := by
    induction files with
    | nil => exact fun m hm => hm
    | cons f rest ih =>
      intro m hm
      rw [List.foldl_cons]
      exact ih _ (goodMap_msetFile m f hm)
  exact hgen [] ⟨List.nodup_nil, by simp⟩

theorem nodup_paths_filterMap {α : Type} (pathOf : α → String) (m : FileMap)
    (g : String × FileCoverage → Option α)
    (hg : ∀ pf ∈ m, ∀ a, g pf = some a → pathOf a = pf.1)
    (hnd : (m.map Prod.fst).Nodup) :
    ((m.filterMap g).map pathOf).Nodup := by
  induction m with
  | nil => simp
  | cons pf rest ih =>
    simp only [List.map_cons, List.nodup_cons] at hnd
    rw [List.filterMap_cons]
    cases hga : g pf with
    | none => exact ih (fun q hq a ha => hg q (List.mem_cons_of_mem _ hq) a ha) hnd.2
    | some a =>
      rw [List.map_cons, List.nodup_cons]
      refine ⟨?_, ih (fun q hq b hb => hg q (List.mem_cons_of_mem _ hq) b hb) hnd.2⟩
      intro hmem
      rw [List.mem_map] at hmem
      obtain ⟨b, hb, hpb⟩ := hmem
      rw [List.mem_filterMap] at hb
      obtain ⟨q, hq, hgq⟩ := hb
      have h1 : pathOf a = pf.1 := hg pf (List.mem_cons_self _ _) a hga
      have h2 : pathOf b = q.1 := hg q (List.mem_cons_of_mem _ hq) b hgq
      apply hnd.1
      rw [← h1, ← hpb, h2]
      exact List.mem_map_of_mem Prod.fst hq

/-- C10: the lookup maps of `compareResults` are keyed by path with later
entries overwriting earlier ones (lookup returns the last entry with the
path), and consequently `filesAdded`, `filesRemoved` and `filesChanged` each
carry at most one entry per distinct path, even when the summaries' file
lists repeat paths. -/
theorem compare_keyed_by_path_last_wins (baseResults currentResults : AggregatedCoverageResults)
    (options : Option CompareOptions) (files : List FileCoverage) (p : String) :
    lookupFile (buildFileMap files) p =
      files.foldl (fun acc f => if f.path = p then some f else acc) none ∧
    ((CoverageComparator.compareResults baseResults currentResults options).filesAdded.map
      FileCoverage.path).Nodup ∧
    ((CoverageComparator.compareResults baseResults currentResults options).filesRemoved.map
      FileCoverage.path).Nodup ∧
    ((CoverageComparator.compareResults baseResults currentResults options).filesChanged.map
      FileComparison.path).Nodup := by
  refine ⟨?_, ?_, ?_, ?_⟩
  · rw [buildFileMap, lookupFile_foldl_mset]
    rfl
  · rw [compareResults_filesAdded]
    apply nodup_paths_filterMap FileCoverage.path _ _ ?_ (goodMap_buildFileMap _).1
    intro pf hpf a ha
    by_cases hk : (lookupFile (buildFileMap baseResults.files) pf.1).isNone
    · rw [if_pos hk] at ha
      cases ha
      exact (goodMap_buildFileMap currentResults.files).2 pf hpf
    · rw [if_neg hk] at ha
      cases ha
  · rw [compareResults_filesRemoved]
    apply nodup_paths_filterMap FileCoverage.path _ _ ?_ (goodMap_buildFileMap _).1
    intro pf hpf a ha
    by_cases hk : (lookupFile (buildFileMap currentResults.files) pf.1).isNone
    · rw [if_pos hk] at ha
      cases ha
      exact (goodMap_buildFileMap baseResults.files).2 pf hpf
    · rw [if_neg hk] at ha
      cases ha
  · rw [compareResults_filesChanged_if]
    apply nodup_paths_filterMap FileComparison.path _ _ ?_ (goodMap_buildFileMap _).1
    intro pf hpf a ha
    cases hlk : lookupFile (buildFileMap baseResults.files) pf.1 with
    | none =>
      simp only [hlk] at ha
      cases ha
    | some baseFile =>
      simp only [hlk] at ha
      by_cases hcond : (compareFiles baseFile pf.2).deltaLineRate ≠ 0 ∨
          (compareFiles baseFile pf.2).deltaBranchRate ≠ 0
      · rw [if_pos hcond] at ha
        cases ha
        rw [compareFiles_path]
        exact (goodMap_buildFileMap currentResults.files).2 pf hpf
      · rw [if_neg hcond] at ha
        cases ha

/-- C4: the upload functions catch every failure — they always return
normally (`Except.ok`), never re-throwing to the pipeline caller — and the
persist-then-compare pipeline step yields a result that does not depend on
the upload outcome at all: every non-`comparison` field equals the input's,
whether or not the artifact store failed. -/
theorem upload_failures_swallowed
    (uploadEnv uploadEnv2 : UploadEnv) (retrievalEnv : RetrievalEnv)
    (coverageResults : AggregatedCoverageResults) (testResults : AggregatedTestResults)
    (branchName : String) (flags : Option (List String)) (variantName : Option String)
    (currentBranch baseBranch : String) :
    (∃ out, uploadCoverageResults uploadEnv coverageResults branchName flags variantName =
      Except.ok out) ∧
    (∃ out, uploadResults uploadEnv testResults branchName variantName = Except.ok out) ∧
    persistAndAttachComparison uploadEnv retrievalEnv coverageResults currentBranch baseBranch =
      persistAndAttachComparison uploadEnv2 retrievalEnv coverageResults currentBranch
        baseBranch ∧
    eraseComparison
        (persistAndAttachComparison uploadEnv retrievalEnv coverageResults currentBranch
          baseBranch) =
      eraseComparison coverageResults := by
  refine ⟨?_, ?_, rfl, ?_⟩
  · obtain ⟨m, w, u, ul, r⟩ := uploadEnv
    cases m <;> cases w <;> cases u <;> cases ul <;> cases r <;> exact ⟨_, rfl⟩
  · obtain ⟨m, w, u, ul, r⟩ := uploadEnv
    cases m <;> cases w <;> cases u <;> cases ul <;> cases r <;> exact ⟨_, rfl⟩
  · cases hdl : (downloadBaseCoverageResults retrievalEnv none baseBranch none none none).2 with
    | none => simp [persistAndAttachComparison, hdl]
    | some baseCoverage => simp [persistAndAttachComparison, hdl, eraseComparison]

/-- C9: whatever payload an upload call writes is exactly the input results
with the `comparison` field removed: every other field is carried over
unchanged, and a payload read back as a base summary carries no comparison. -/
theorem persisted_payload_is_input_minus_comparison
    (uploadEnv : UploadEnv) (coverageResults : AggregatedCoverageResults)
    (testResults : AggregatedTestResults) (branchName : String)
    (flags : Option (List String)) (variantName : Option String)
    (out : UploadOutcome SavedCoverageResults) (outT : UploadOutcome SavedTestResults)
    (hc : uploadCoverageResults uploadEnv coverageResults branchName flags variantName =
      Except.ok out)
    (ht : uploadResults uploadEnv testResults branchName variantName = Except.ok outT) :
    (∀ payload, out.written = some payload → payload = eraseComparison coverageResults) ∧
    (∀ payload, outT.written = some payload → payload = eraseTestComparison testResults) ∧
    (eraseComparison coverageResults).totalStatements = coverageResults.totalStatements ∧
    (eraseComparison coverageResults).coveredStatements = coverageResults.coveredStatements ∧
    (eraseComparison coverageResults).totalConditionals = coverageResults.totalConditionals ∧
    (eraseComparison coverageResults).coveredConditionals
      = coverageResults.coveredConditionals ∧
    (eraseComparison coverageResults).totalMethods = coverageResults.totalMethods ∧
    (eraseComparison coverageResults).coveredMethods = coverageResults.coveredMethods ∧
    (eraseComparison coverageResults).lineRate = coverageResults.lineRate ∧
    (eraseComparison coverageResults).branchRate = coverageResults.branchRate ∧
    (eraseComparison coverageResults).files = coverageResults.files ∧
    (eraseComparison coverageResults).flags = coverageResults.flags ∧
    (eraseComparison coverageResults).name = coverageResults.name ∧
    (eraseComparison coverageResults).totalHits = coverageResults.totalHits ∧
    (eraseComparison coverageResults).totalMisses = coverageResults.totalMisses ∧
    (eraseComparison coverageResults).totalPartials = coverageResults.totalPartials ∧
    (eraseComparison coverageResults).totalBranches = coverageResults.totalBranches ∧
    (eraseComparison coverageResults).totalFiles = coverageResults.totalFiles ∧
    (eraseComparison coverageResults).totalLines = coverageResults.totalLines ∧
    (eraseComparison coverageResults).patchCoverageRate = coverageResults.patchCoverageRate ∧
    (readBackCoverage (eraseComparison coverageResults)).comparison = none := by
  refine ⟨?_, ?_, rfl, rfl, rfl, rfl, rfl, rfl, rfl, rfl, rfl, rfl, rfl, rfl, rfl, rfl,
    rfl, rfl, rfl, rfl, rfl⟩
  · obtain ⟨m, w, u, ul, r⟩ := uploadEnv
    cases m <;> cases w <;> cases u <;> cases ul <;> cases r <;>
      · injection hc with hc
        subst hc
        intro payload hp
        cases hp <;> rfl
  · obtain ⟨m, w, u, ul, r⟩ := uploadEnv
    cases m <;> cases w <;> cases u <;> cases ul <;> cases r <;>
      · injection ht with ht
        subst ht
        intro payload hp
        cases hp <;> rfl

/-- An environment in which every file-system and artifact-store step
succeeds. -/
def exUploadEnvOk : UploadEnv :=
  { mkdtempOutcome := Except.ok "/tmp/codecov-coverage-x"
    writeOutcome := Except.ok ()
    uploadOutcome := Except.ok 1
    unlinkOutcome := Except.ok ()
    rmdirOutcome := Except.ok () }

/-- Witness for C9: a fully successful upload of `exSumA` writes exactly
`eraseComparison exSumA`, and the payload read back as a base summary carries
no comparison. -/
theorem persisted_payload_is_input_minus_comparison_witness :
    (readBackCoverage (eraseComparison exSumA)).comparison = none := by
  have h := persisted_payload_is_input_minus_comparison exUploadEnvOk exSumA
    { totalTests := 1, passedTests := 1, failedTests := 0, skippedTests := 0,
      passRate := 100, totalTime := 1 } "main" none none
    { written := some (eraseComparison exSumA), warning := none }
    { written := some (eraseTestComparison
        { totalTests := 1, passedTests := 1, failedTests := 0, skippedTests := 0,
          passRate := 100, totalTime := 1 }), warning := none }
    rfl rfl
  exact h.2.2.2.2.2.2.2.2.2.2.2.2.2.2.2.2.2.2.2.2

theorem findCandidateArtifact_cons (nm : String) (rest : List String)
    (artifacts : List ArtifactInfo) :
    findCandidateArtifact (nm :: rest) artifacts =
      match artifacts.find? (fun a => a.name == nm && !a.expired) with
      | some a => some a
      | none => findCandidateArtifact rest artifacts := rfl

theorem findCandidateArtifact_none (names : List String) (artifacts : List ArtifactInfo)
    (h : ∀ x ∈ artifacts, x.name ∈ names → x.expired = true) :
    findCandidateArtifact names artifacts = none := by
  induction names with
  | nil => rfl
  | cons nm rest ih =>
    have hfind : artifacts.find? (fun a => a.name == nm && !a.expired) = none := by
      rw [List.find?_eq_none]
      intro x hx hcontra
      rw [Bool.and_eq_true] at hcontra
      have hxn : x.name = nm := by simpa using hcontra.1
      have hxe := h x hx (by rw [hxn]; exact List.mem_cons_self _ _)
      rw [hxe] at hcontra
      simp at hcontra
    rw [findCandidateArtifact_cons, hfind]
    exact ih (fun x hx hmem => h x hx (List.mem_cons_of_mem _ hmem))

theorem findCandidateArtifact_some (names : List String) (artifacts : List ArtifactInfo)
    (a : ArtifactInfo) (h : findCandidateArtifact names artifacts = some a) :
    a.expired = false ∧ a ∈ artifacts ∧
      names.find? (fun nm => artifacts.any (fun x => x.name == nm && !x.expired))
        = some a.name := by
  induction names with
  | nil => cases h
  | cons nm rest ih =>
    rw [findCandidateArtifact_cons] at h
    cases hfind : artifacts.find? (fun x => x.name == nm && !x.expired) with
    | some b =>
      simp only [hfind] at h
      cases h
      have hpred := List.find?_some hfind
      rw [Bool.and_eq_true] at hpred
      have hname : a.name = nm := by simpa using hpred.1
      have hexp : a.expired = false := by simpa using hpred.2
      have hmem := List.mem_of_find?_eq_some hfind
      refine ⟨hexp, hmem, ?_⟩
      have hany : (artifacts.any fun x => x.name == nm && !x.expired) = true :=
        List.any_eq_true.mpr ⟨a, hmem, by rw [Bool.and_eq_true]; exact hpred⟩
      calc (nm :: rest).find? (fun nm => artifacts.any fun x => x.name == nm && !x.expired)
          = some nm := List.find?_cons_of_pos rest hany
        _ = some a.name := by rw [hname]
    | none =>
      simp only [hfind] at h
      obtain ⟨h1, h2, h3⟩ := ih h
      refine ⟨h1, h2, ?_⟩
      have hnone : ¬((artifacts.any fun x => x.name == nm && !x.expired) = true) := by
        intro hany
        rw [List.any_eq_true] at hany
        obtain ⟨x, hx, hpx⟩ := hany
        exact (List.find?_eq_none.mp hfind x hx) hpx
      calc (nm :: rest).find? (fun nm => artifacts.any fun x => x.name == nm && !x.expired)
          = rest.find? (fun nm => artifacts.any fun x => x.name == nm && !x.expired) :=
            List.find?_cons_of_neg rest hnone
        _ = some a.name := h3

theorem scanRuns_cons (env : RetrievalEnv) (names : List String) (run : WorkflowRun)
    (rest : List WorkflowRun) :
    scanRuns env names (run :: rest) =
      match findCandidateArtifact names (env.listArtifacts run.id) with
      | some a => some a
      | none => scanRuns env names rest := rfl

theorem scanRuns_none (env : RetrievalEnv) (names : List String) (runs : List WorkflowRun)
    (h : ∀ run ∈ runs, findCandidateArtifact names (env.listArtifacts run.id) = none) :
    scanRuns env names runs = none := by
  induction runs with
  | nil => rfl
  | cons run rest ih =>
    rw [scanRuns_cons, h run (List.mem_cons_self _ _)]
    exact ih (fun r hr => h r (List.mem_cons_of_mem _ hr))

theorem dedupFirstAux_find? (l : List String) (seen : List String) (p : String → Bool)
    (hseen : ∀ s ∈ seen, p s = false) :
    (dedupFirstAux seen l).find? p = l.find? p := by
  induction l generalizing seen with
  | nil => rfl
  | cons x xs ih =>
    rw [dedupFirstAux]
    by_cases hx : x ∈ seen
    · rw [if_pos hx, ih seen hseen, List.find?_cons_of_neg _ (by simp [hseen x hx])]
    · rw [if_neg hx]
      by_cases hp : p x = true
      · rw [List.find?_cons_of_pos _ hp, List.find?_cons_of_pos _ hp]
      · have hp2 : p x = false := by simpa using hp
        rw [List.find?_cons_of_neg _ (by simp [hp2]),
          List.find?_cons_of_neg _ (by simp [hp2])]
        refine ih (x :: seen) ?_
        intro s hs
        rcases List.mem_cons.mp hs with rfl | hs
        · exact hp2
        · exact hseen s hs

theorem dedupFirst_find? (l : List String) (p : String → Bool) :
    (dedupFirst l).find? p = l.find? p :=
  dedupFirstAux_find? l [] p (by simp)

theorem downloadBaseCoverageResults_no_sha (env : RetrievalEnv) (job : Option String)
    (baseBranch : String) (flags : Option (List String)) (variantName : Option String) :
    downloadBaseCoverageResults env job baseBranch flags variantName none =
      ([⟨RunFilter.byBranch baseBranch, "success", 10⟩],
        (scanRuns env (artifactNamesToTry job baseBranch "coverage" flags variantName)
          (env.listRuns ⟨RunFilter.byBranch baseBranch, "success", 10⟩)).bind
          (fun a => env.download a.id)) := rfl

theorem downloadBaseCoverageResults_with_sha (env : RetrievalEnv) (job : Option String)
    (baseBranch : String) (flags : Option (List String)) (variantName : Option String)
    (sha : String) :
    downloadBaseCoverageResults env job baseBranch flags variantName (some sha) =
      (if (env.listRuns ⟨RunFilter.byCommit sha, "success", 10⟩).isEmpty then
        ([⟨RunFilter.byCommit sha, "success", 10⟩,
          ⟨RunFilter.byBranch baseBranch, "success", 10⟩],
          (scanRuns env (artifactNamesToTry job baseBranch "coverage" flags variantName)
            (env.listRuns ⟨RunFilter.byBranch baseBranch, "success", 10⟩)).bind
            (fun a => env.download a.id))
      else
        ([⟨RunFilter.byCommit sha, "success", 10⟩],
          (scanRuns env (artifactNamesToTry job baseBranch "coverage" flags variantName)
            (env.listRuns ⟨RunFilter.byCommit sha, "success", 10⟩)).bind
            (fun a => env.download a.id))) := rfl

/-- C3: within a run's artifact list the scan picks the first matching name of
the fixed order current-with-qualifiers, current-without, legacy-with,
legacy-without; an expired artifact never matches whatever its name; and when
no unexpired candidate matches in any scanned run the retrieval returns
`none` rather than raising. -/
theorem artifact_scan_order_expired_skipped_not_found
    (env : RetrievalEnv) (job : Option String) (baseBranch : String)
    (flags : Option (List String)) (variantName : Option String)
    (artifacts : List ArtifactInfo) (a : ArtifactInfo)
    (runs : List WorkflowRun) (baseSha : Option String) :
    (findCandidateArtifact (artifactNamesToTry job baseBranch "coverage" flags variantName)
        artifacts = some a →
      a.expired = false ∧ a ∈ artifacts ∧
      [getArtifactName job baseBranch "coverage" flags variantName,
       getArtifactName job baseBranch "coverage" none none,
       getLegacyArtifactName baseBranch "coverage" flags variantName,
       getLegacyArtifactName baseBranch "coverage" none none].find?
          (fun nm => artifacts.any (fun x => x.name == nm && !x.expired)) = some a.name) ∧
    (a.expired = true →
      findCandidateArtifact (artifactNamesToTry job baseBranch "coverage" flags variantName)
        artifacts ≠ some a) ∧
    ((∀ run ∈ runs, ∀ x ∈ env.listArtifacts run.id,
        x.name ∈ artifactNamesToTry job baseBranch "coverage" flags variantName →
        x.expired = true) →
      scanRuns env (artifactNamesToTry job baseBranch "coverage" flags variantName) runs
        = none) ∧
    ((∀ runId : ℕ, ∀ x ∈ env.listArtifacts runId,
        x.name ∈ artifactNamesToTry job baseBranch "coverage" flags variantName →
        x.expired = true) →
      (downloadBaseCoverageResults env job baseBranch flags variantName baseSha).2
        = none) := by
  refine ⟨?_, ?_, ?_, ?_⟩
  · intro h
    obtain ⟨h1, h2, h3⟩ := findCandidateArtifact_some _ _ _ h
    refine ⟨h1, h2, ?_⟩
    rw [artifactNamesToTry, dedupFirst_find?] at h3
    exact h3
  · intro he hcon
    have h1 := (findCandidateArtifact_some _ _ _ hcon).1
    rw [he] at h1
    cases h1
  · intro h
    exact scanRuns_none _ _ _
      (fun run hrun => findCandidateArtifact_none _ _ (h run hrun))
  · intro h
    have hscan : ∀ someRuns : List WorkflowRun,
        scanRuns env (artifactNamesToTry job baseBranch "coverage" flags variantName)
          someRuns = none :=
      fun someRuns => scanRuns_none _ _ _
        (fun run _ => findCandidateArtifact_none _ _ (h run.id))
    cases baseSha with
    | none => rw [downloadBaseCoverageResults_no_sha, hscan]; rfl
    | some sha =>
      rw [downloadBaseCoverageResults_with_sha]
      by_cases hempty : (env.listRuns ⟨RunFilter.byCommit sha, "success", 10⟩).isEmpty
      · rw [if_pos hempty, hscan]; rfl
      · rw [if_neg hempty, hscan]; rfl

/-- One unexpired artifact under the plain legacy coverage name for `main`. -/
def cexC2Artifact : ArtifactInfo :=
  { name := "codecov-coverage-results-main", id := 5, expired := false }

/-- An environment where the commit `abc` has one successful run (run id 1)
with no artifacts, while branch `main` has one successful run (run id 2)
holding a matching unexpired coverage artifact. -/
def cexC2Env : RetrievalEnv :=
  { listRuns := fun q =>
      if q = ⟨RunFilter.byCommit "abc", "success", 10⟩ then [⟨1, 1⟩]
      else if q = ⟨RunFilter.byBranch "main", "success", 10⟩ then [⟨2, 2⟩] else []
    listArtifacts := fun runId => if runId = 2 then [cexC2Artifact] else []
    download := fun i => if i = 5 then some exSumA else none }

/-- Witness for C3: the same environment with the branch artifact expired —
the scan skips it and retrieval returns `none`. -/
def cexC3Env : RetrievalEnv :=
  { listRuns := fun q =>
      if q = ⟨RunFilter.byBranch "main", "success", 10⟩ then [⟨2, 2⟩] else []
    listArtifacts := fun runId =>
      if runId = 2 then [{ name := "codecov-coverage-results-main", id := 5, expired := true }]
      else []
    download := fun i => if i = 5 then some exSumA else none }

/-- Witness for C3: an expired artifact whose name matches is skipped, and the
retrieval ends in `none`. -/
theorem artifact_scan_order_expired_skipped_not_found_witness :
    (downloadBaseCoverageResults cexC3Env none "main" none none none).2 = none :=
  (artifact_scan_order_expired_skipped_not_found cexC3Env none "main" none none
    [] cexC2Artifact [] none).2.2.2 (by
      intro runId x hx hmem
      by_cases h2 : runId = 2
      · subst h2
        simp [cexC3Env] at hx
        subst hx
        rfl
      · simp [cexC3Env, h2] at hx)

/-- C2 (amended): when a base commit reference is supplied, the first (and
possibly only) run-listing request filters by that exact commit with status
"success" and page size 10; the branch-filtered request is issued only when
the commit-filtered listing returns no runs.  When a run is found for the
exact commit, the scan uses those runs only — even if none of them holds a
matching artifact, no branch fallback happens.  Without a commit reference
only the branch request is issued. -/
theorem sha_tier_then_branch_only_on_no_runs
    (env : RetrievalEnv) (job : Option String) (baseBranch : String)
    (flags : Option (List String)) (variantName : Option String) (sha : String) :
    (downloadBaseCoverageResults env job baseBranch flags variantName (some sha)).1.head? =
      some ⟨RunFilter.byCommit sha, "success", 10⟩ ∧
    (env.listRuns ⟨RunFilter.byCommit sha, "success", 10⟩ ≠ [] →
      (downloadBaseCoverageResults env job baseBranch flags variantName (some sha)).1 =
        [⟨RunFilter.byCommit sha, "success", 10⟩] ∧
      (downloadBaseCoverageResults env job baseBranch flags variantName (some sha)).2 =
        (scanRuns env (artifactNamesToTry job baseBranch "coverage" flags variantName)
          (env.listRuns ⟨RunFilter.byCommit sha, "success", 10⟩)).bind
          (fun a => env.download a.id)) ∧
    (env.listRuns ⟨RunFilter.byCommit sha, "success", 10⟩ = [] →
      (downloadBaseCoverageResults env job baseBranch flags variantName (some sha)).1 =
        [⟨RunFilter.byCommit sha, "success", 10⟩,
         ⟨RunFilter.byBranch baseBranch, "success", 10⟩] ∧
      (downloadBaseCoverageResults env job baseBranch flags variantName (some sha)).2 =
        (scanRuns env (artifactNamesToTry job baseBranch "coverage" flags variantName)
          (env.listRuns ⟨RunFilter.byBranch baseBranch, "success", 10⟩)).bind
          (fun a => env.download a.id)) ∧
    (downloadBaseCoverageResults env job baseBranch flags variantName none).1 =
      [⟨RunFilter.byBranch baseBranch, "success", 10⟩] := by
  by_cases hempty : (env.listRuns ⟨RunFilter.byCommit sha, "success", 10⟩).isEmpty
  · have hnil : env.listRuns ⟨RunFilter.byCommit sha, "success", 10⟩ = [] := by
      rwa [List.isEmpty_iff] at hempty
    refine ⟨?_, ?_, ?_, rfl⟩
    · rw [downloadBaseCoverageResults_with_sha, if_pos hempty]
      rfl
    · intro hne
      exact absurd hnil hne
    · intro _
      rw [downloadBaseCoverageResults_with_sha, if_pos hempty]
      exact ⟨rfl, rfl⟩
  · have hne : env.listRuns ⟨RunFilter.byCommit sha, "success", 10⟩ ≠ [] := by
      intro hh
      exact hempty (by rw [hh]; rfl)
    refine ⟨?_, ?_, ?_, rfl⟩
    · rw [downloadBaseCoverageResults_with_sha, if_neg hempty]
      rfl
    · intro _
      rw [downloadBaseCoverageResults_with_sha, if_neg hempty]
      exact ⟨rfl, rfl⟩
    · intro hnil
      exact absurd hnil hne

/-- Witness for C2 (amended): in `cexC2Env` the commit `abc` has a successful
run, so only the commit-filtered request is issued. -/
theorem sha_tier_then_branch_only_on_no_runs_witness :
    (downloadBaseCoverageResults cexC2Env none "main" none none (some "abc")).1 =
      [⟨RunFilter.byCommit "abc", "success", 10⟩] :=
  ((sha_tier_then_branch_only_on_no_runs cexC2Env none "main" none none "abc").2.1
    (by decide)).1

/-- Counterexample for C2 as stated: the exact-commit search finds a run (run
id 1) but no artifact in it, and although the branch tier holds a matching
unexpired artifact that would be found (third conjunct), retrieval does not
fall back — the branch request is never issued and the result is `none`. -/
theorem sha_no_artifact_does_not_fall_back :
    (downloadBaseCoverageResults cexC2Env none "main" none none (some "abc")).1 =
      [⟨RunFilter.byCommit "abc", "success", 10⟩] ∧
    (downloadBaseCoverageResults cexC2Env none "main" none none (some "abc")).2 = none ∧
    (scanRuns cexC2Env (artifactNamesToTry none "main" "coverage" none none)
        (cexC2Env.listRuns ⟨RunFilter.byBranch "main", "success", 10⟩)).bind
        (fun a => cexC2Env.download a.id) = some exSumA := by
  refine ⟨?_, ?_, ?_⟩ <;> decide

theorem round2_mul_hundred_int (q : ℚ) : ∃ m : ℤ, round2 q * 100 = (m : ℚ) :=
  ⟨round (q * 100), by rw [round2]; ring⟩

/-- Every aggregate the pipeline produces satisfies the hundredths hypothesis
of `compareResults_antisymmetry`: its rates are exact multiples of 1/100. -/
theorem aggregated_rates_are_hundredths (results : List CoverageResults) :
    (∃ m : ℤ, (CoverageParser.aggregateResults results).lineRate * 100 = (m : ℚ)) ∧
    (∃ m : ℤ, (CoverageParser.aggregateResults results).branchRate * 100 = (m : ℚ)) := by
  constructor <;>
  · simp only [CoverageParser.aggregateResults]
    split
    · exact round2_mul_hundred_int _
    · exact ⟨0, by norm_num⟩
